import Mathlib

/-
Verification of the BytePS core staging engine (operations.cc) and the
vanilla momentum compressor (vanilla_momentum.cc) against their
natural-language specification.  The C++ source is embedded shallowly:
pure computations become Lean functions, the mutable engine state
(per-stage queues, shared atomic counters, the pending NCCL group list)
becomes an explicit EngineState record threaded through each operation,
fatal BPS_CHECK macros become Except.error results, and externally
observable actions (enqueues, signals, collective calls, callbacks,
stream events) are recorded in an event trace.
-/

namespace byteps

/-- Stage identifiers, mirroring QueueType of the C++ source. -/
inductive QueueType
  | COORDINATE_REDUCE
  | REDUCE
  | COPYD2H
  | PUSH
  | PULL
  | COPYH2D
  | COORDINATE_BROADCAST
  | BROADCAST
deriving DecidableEq, Repr

/-- Signal kinds carried by BytePSCommMsg. -/
inductive SignalKind
  | REDUCE_READY
  | BCAST_READY
  | DO_REDUCE
  | DO_BROADCAST
  | DO_GROUP
deriving DecidableEq, Repr

/-- Which collective a call issues. -/
inductive NcclOpKind
  | reduceOp
  | broadcastOp
deriving DecidableEq, Repr

/-- Tensor handle: byte size, element count, dtype code and whether the
data pointer is non-null (BPS_CHECK(tensor->data())). -/
structure Tensor where
  size : Nat
  numElements : Nat
  dtype : Nat
  hasData : Bool
deriving DecidableEq, Repr

/-- One partition work item (TensorTableEntry of the C++ source).
The shared_ptr of atomic_int counter_ptr is modelled by counterId, an
index into the counter store of EngineState; the StatusCallback is
modelled by callbackId, an identity recorded in Callback trace events. -/
structure TensorTableEntry where
  tensor_name : String
  key : Nat
  contextId : Nat
  ready_event : Nat
  device : Int
  priority : Int
  version : Int
  tensor : Option Tensor
  output : Option Tensor
  offset : Nat
  len : Nat
  cpubuff : Nat
  queue_list : List QueueType
  counterId : Nat
  total_partnum : Int
  callbackId : Nat
deriving DecidableEq, Repr

/-- Per-tensor persistent metadata (BPSContext). -/
structure BPSContext where
  contextId : Nat
  cpubuff : Nat
  buff_len : Nat
  key_list : List Nat
  initialized : Bool
deriving DecidableEq, Repr

/-- Observable actions recorded in the trace. -/
inductive Event
  | NcclGroupStart
  | NcclGroupEnd
  | BroadcastSignal (src : Nat) (signal : SignalKind) (key : Nat)
  | SendSignal (dest : Nat) (src : Nat) (signal : SignalKind) (key : Nat)
  | AddTask (q : QueueType) (key : Nat)
  | NcclCall (op : NcclOpKind) (key : Nat)
  | EventCreate
  | EventRecord
  | EventSynchronize
  | EventDestroy
  | Callback (cb : Nat) (ok : Bool)
  | ReportFinish (q : QueueType) (len : Nat)
  | Sleep
deriving DecidableEq, Repr

/-- A batch of items issued under one group start/end pair (NcclGroupEntry).
queues records, for each task, the queue it was pulled from; only the root
loop fills it. -/
structure NcclGroupEntry where
  tasks : List TensorTableEntry
  queues : List QueueType
deriving DecidableEq, Repr

/-- The eight per-stage scheduled queues. -/
structure Queues where
  coordinateReduceQ : List TensorTableEntry
  reduceQ : List TensorTableEntry
  copyD2HQ : List TensorTableEntry
  pushQ : List TensorTableEntry
  pullQ : List TensorTableEntry
  copyH2DQ : List TensorTableEntry
  coordinateBroadcastQ : List TensorTableEntry
  broadcastQ : List TensorTableEntry
deriving DecidableEq, Repr

/-- Read one stage queue. -/
def getQ (qs : Queues) : QueueType → List TensorTableEntry
  | QueueType.COORDINATE_REDUCE => qs.coordinateReduceQ
  | QueueType.REDUCE => qs.reduceQ
  | QueueType.COPYD2H => qs.copyD2HQ
  | QueueType.PUSH => qs.pushQ
  | QueueType.PULL => qs.pullQ
  | QueueType.COPYH2D => qs.copyH2DQ
  | QueueType.COORDINATE_BROADCAST => qs.coordinateBroadcastQ
  | QueueType.BROADCAST => qs.broadcastQ

/-- Replace one stage queue. -/
def setQ (qs : Queues) : QueueType → List TensorTableEntry → Queues
  | QueueType.COORDINATE_REDUCE, l => { qs with coordinateReduceQ := l }
  | QueueType.REDUCE, l => { qs with reduceQ := l }
  | QueueType.COPYD2H, l => { qs with copyD2HQ := l }
  | QueueType.PUSH, l => { qs with pushQ := l }
  | QueueType.PULL, l => { qs with pullQ := l }
  | QueueType.COPYH2D, l => { qs with copyH2DQ := l }
  | QueueType.COORDINATE_BROADCAST, l => { qs with coordinateBroadcastQ := l }
  | QueueType.BROADCAST, l => { qs with broadcastQ := l }

/-- The mutable global state threaded through the stage functions:
queues, the store of shared atomic counters (association list indexed by
counterId, absent entries read 0), the allocator for fresh counter ids,
the pending NCCL group list of BytePSGlobal, and the event trace. -/
structure EngineState where
  queues : Queues
  counters : List (Nat × Int)
  nextCounterId : Nat
  ncclGroups : List NcclGroupEntry
  events : List Event
deriving DecidableEq, Repr

/-- Read a shared counter. -/
def getCounter : List (Nat × Int) → Nat → Int
  | [], _ => 0
  | p :: rest, cid => if p.fst = cid then p.snd else getCounter rest cid

/-- Write a shared counter. -/
def setCounter : List (Nat × Int) → Nat → Int → List (Nat × Int)
  | [], cid, v => [(cid, v)]
  | p :: rest, cid, v =>
      if p.fst = cid then (cid, v) :: rest else p :: setCounter rest cid v

/-- Append one event to the trace. -/
def emit (e : Event) (st : EngineState) : EngineState :=
  { st with events := st.events ++ [e] }

/-- BytePSScheduledQueue::addTask: append to the stage queue (and record
the enqueue in the trace). -/
def addTask (q : QueueType) (t : TensorTableEntry) (st : EngineState) : EngineState :=
  { st with queues := setQ st.queues q (getQ st.queues q ++ [t]),
            events := st.events ++ [Event.AddTask q t.key] }

/-- Modelled from the spec: BytePSScheduledQueue::getTask is not under
src/ (only its callers are).  Per the spec it returns the highest-priority
ready item or nothing, tie broken by priority ascending then enqueue
order; every item is modelled as ready. -/
def getTask : List TensorTableEntry → Option (TensorTableEntry × List TensorTableEntry)
  | [] => none
  | t :: ts =>
      match getTask ts with
      | none => some (t, [])
      | some (u, us) =>
          if u.priority < t.priority then some (u, t :: us) else some (t, ts)

/-- Modelled from the spec: BytePSScheduledQueue::getTask(key) is not
under src/.  Per the spec it is a non-blocking keyed dequeue returning
the matching item if present. -/
def getTaskByKey (key : Nat) : List TensorTableEntry → Option (TensorTableEntry × List TensorTableEntry)
  | [] => none
  | t :: ts =>
      if t.key = key then some (t, ts)
      else
        match getTaskByKey key ts with
        | none => none
        | some (u, us) => some (u, t :: us)

/-- CPU device sentinel (CPU_DEVICE_ID); work items with any other device
value take the GPU paths. -/
def CPU_DEVICE_ID : Int := -1

/-- FinishOrProceed: pop the head stage from queue_list; if stages remain
enqueue the item on the queue of the new head stage, otherwise fetch_add
the shared counter and fire the callback with success when the
pre-increment value equals total_partnum - 1. -/
def FinishOrProceed (task : TensorTableEntry) (st : EngineState) : Except String EngineState :=
  match task.queue_list with
  | [] => Except.error "BPS_CHECK_GE(task queue_list size, 1) failed"
  | _this_op :: rest =>
      match rest with
      | nq :: _ => Except.ok (addTask nq { task with queue_list := rest } st)
      | [] =>
          let v := getCounter st.counters task.counterId
          let st1 := { st with counters := setCounter st.counters task.counterId (v + 1) }
          if v = task.total_partnum - 1 then
            Except.ok { st1 with events := st1.events ++ [Event.Callback task.callbackId true] }
          else
            Except.ok st1

/-- Result projection: did the operation succeed. -/
def resIsOk : Except String EngineState → Bool
  | Except.ok _ => true
  | Except.error _ => false

/-- Result projection: the trace of the resulting state. -/
def resEvents : Except String EngineState → List Event
  | Except.ok st => st.events
  | Except.error _ => []

/-- Result projection: one stage queue of the resulting state. -/
def resQueue (q : QueueType) : Except String EngineState → List TensorTableEntry
  | Except.ok st => getQ st.queues q
  | Except.error _ => []

/-- Result projection: a shared counter of the resulting state. -/
def resCounter (cid : Nat) : Except String EngineState → Int
  | Except.ok st => getCounter st.counters cid
  | Except.error _ => 0

/-- Event classifiers used for counting. -/
def isAddTask : Event → Bool
  | Event.AddTask _ _ => true
  | _ => false

def isReportFinish : Event → Bool
  | Event.ReportFinish _ _ => true
  | _ => false

def isCallback : Event → Bool
  | Event.Callback _ _ => true
  | _ => false

/-- Does x occur strictly before the first occurrence of y never having
seen y, scanning the list once from the front. -/
def precedesB (x y : Event) : List Event → Bool
  | [] => false
  | e :: rest => if e = x then rest.any (fun z => z = y) else precedesB x y rest

/-- RunCoordinateLoopOnce (non-root only): dequeue an item from the
coordinate queue, advance it via FinishOrProceed (which enqueues it on
the next stage queue), then send the REDUCE_READY or BCAST_READY signal
carrying the local rank and the key to the root, then reportFinish. -/
def RunCoordinateLoopOnce (this_op : QueueType) (isRoot : Bool) (root rank : Nat)
    (st : EngineState) : Except String EngineState :=
  match getTask (getQ st.queues this_op) with
  | none => Except.ok (emit Event.Sleep st)
  | some (task, restQ) =>
      if isRoot then
        Except.error "BPS_CHECK failed: only non-root device should enter COORDINATE loop"
      else
        let st1 := { st with queues := setQ st.queues this_op restQ }
        match FinishOrProceed task st1 with
        | Except.error e => Except.error e
        | Except.ok st2 =>
            let sig := if this_op = QueueType.COORDINATE_REDUCE then SignalKind.REDUCE_READY
                       else SignalKind.BCAST_READY
            Except.ok (emit (Event.ReportFinish this_op task.len)
                       (emit (Event.SendSignal root rank sig task.key) st2))

/-- The collection loop of RunRootNcclLoopOnce for one of REDUCE and
BROADCAST: pull up to the group size many items; for each GPU item with
more than one local device, broadcast the DO signal and issue the
collective inside the open group.  Returns the updated state together
with the accumulated tasks and their originating queues. -/
def rootCollect (this_op : QueueType) (localSize rank : Nat) :
    Nat → EngineState → List TensorTableEntry → List QueueType →
    Except String (EngineState × List TensorTableEntry × List QueueType)
  | 0, st, ts, qs => Except.ok (st, ts, qs)
  | Nat.succ n, st, ts, qs =>
      match getTask (getQ st.queues this_op) with
      | none => Except.ok (st, ts, qs)
      | some (task, restQ) =>
          let st1 := { st with queues := setQ st.queues this_op restQ }
          let ts1 := ts ++ [task]
          let qs1 := qs ++ [this_op]
          match (if this_op = QueueType.REDUCE then task.tensor else task.output) with
          | none => Except.error "BPS_CHECK(tensor) failed"
          | some t =>
              if task.device = CPU_DEVICE_ID then
                rootCollect this_op localSize rank n st1 ts1 qs1
              else if t.hasData = false then
                Except.error "BPS_CHECK(tensor data) failed"
              else if t.size % t.numElements ≠ 0 then
                Except.error "BPS_CHECK_EQ(0, size mod num_elements) failed"
              else
                let st2 :=
                  if localSize > 1 then
                    emit (Event.NcclCall
                            (if this_op = QueueType.REDUCE then NcclOpKind.reduceOp
                             else NcclOpKind.broadcastOp) task.key)
                      (emit (Event.BroadcastSignal rank
                               (if this_op = QueueType.REDUCE then SignalKind.DO_REDUCE
                                else SignalKind.DO_BROADCAST) task.key) st1)
                  else st1
                rootCollect this_op localSize rank n st2 ts1 qs1

/-- Both collection passes of the root loop, REDUCE then BROADCAST. -/
def rootCollectBoth (localSize groupSize rank : Nat) (st : EngineState) :
    Except String (EngineState × List TensorTableEntry × List QueueType) :=
  match rootCollect QueueType.REDUCE localSize rank groupSize st [] [] with
  | Except.error e => Except.error e
  | Except.ok (st1, ts, qs) =>
      rootCollect QueueType.BROADCAST localSize rank groupSize st1 ts qs

/-- RunRootNcclLoopOnce: open the group, collect and issue up to group
size items of each of REDUCE and BROADCAST; when at least one item was
pulled, broadcast DO_GROUP, close the group, create and record the
event, and hand the batch to the pending group list consumed by
SyncNccl; otherwise close the empty group and idle. -/
def RunRootNcclLoopOnce (localSize groupSize root rank : Nat) (st : EngineState) :
    Except String EngineState :=
  if rank = root then
    match rootCollectBoth localSize groupSize rank (emit Event.NcclGroupStart st) with
    | Except.error e => Except.error e
    | Except.ok (st1, ts, qs) =>
        if ts.length ≠ 0 then
          Except.ok { (emit Event.EventRecord (emit Event.EventCreate
                        (emit Event.NcclGroupEnd
                          (emit (Event.BroadcastSignal rank SignalKind.DO_GROUP 0) st1)))) with
                      ncclGroups := st1.ncclGroups ++ [{ tasks := ts, queues := qs }] }
        else
          Except.ok (emit Event.Sleep (emit Event.NcclGroupEnd st1))
  else Except.error "BPS_CHECK_EQ(rank, root) failed"

/-- A control message of the intra-node signal channel. -/
structure BytePSCommMsg where
  src : Nat
  signal : SignalKind
  key : Nat
deriving DecidableEq, Repr

/-- The signal-draining loop of RunNonRootNcclLoopOnce: receive signals
from the root; on DO_REDUCE or DO_BROADCAST look up the keyed item on
the corresponding stage queue, check that exactly one stage remains on
its queue_list, and issue the matching collective for GPU items; on
DO_GROUP stop.  The pending incoming signals are passed as a list; an
exhausted list models recvSignal blocking forever. -/
def nonRootRecvLoop (root rank : Nat) :
    List BytePSCommMsg → EngineState → List TensorTableEntry →
    Except String (EngineState × List TensorTableEntry × List BytePSCommMsg)
  | [], _, _ => Except.error "recvSignal blocked: no pending signal"
  | msg :: msgs, st, ts =>
      if msg.src ≠ root then
        Except.error "BPS_CHECK_EQ(src, root) failed"
      else if msg.signal = SignalKind.DO_GROUP then
        Except.ok (st, ts, msgs)
      else if msg.signal ≠ SignalKind.DO_REDUCE ∧ msg.signal ≠ SignalKind.DO_BROADCAST then
        Except.error "BPS_CHECK_EQ(msg.signal, DO_REDUCE) failed"
      else
        let this_op := if msg.signal = SignalKind.DO_BROADCAST then QueueType.BROADCAST
                       else QueueType.REDUCE
        match getTaskByKey msg.key (getQ st.queues this_op) with
        | none => Except.error "BPS_CHECK(task) failed"
        | some (task, restQ) =>
            if task.queue_list.length ≠ 1 then
              Except.error "BPS_CHECK_EQ(queue_list.size, 1) failed: BROADCAST should be the last op"
            else
              let st1 := { st with queues := setQ st.queues this_op restQ }
              let ts1 := ts ++ [task]
              if task.device = CPU_DEVICE_ID then
                nonRootRecvLoop root rank msgs st1 ts1
              else
                match (if this_op = QueueType.REDUCE then task.tensor else task.output) with
                | none => Except.error "null tensor dereference"
                | some t =>
                    if t.hasData = false then
                      Except.error "BPS_CHECK(tensor data) failed"
                    else
                      nonRootRecvLoop root rank msgs
                        (emit (Event.NcclCall
                                 (if this_op = QueueType.REDUCE then NcclOpKind.reduceOp
                                  else NcclOpKind.broadcastOp) task.key) st1) ts1

/-- RunNonRootNcclLoopOnce: open the group, obey the root signals until
DO_GROUP, then close the group, create and record the event, and hand
the batch to the pending group list.  The non-root loop never fills the
queues vector of its group entry. -/
def RunNonRootNcclLoopOnce (root rank : Nat) (msgs : List BytePSCommMsg)
    (st : EngineState) : Except String (EngineState × List BytePSCommMsg) :=
  if rank = root then
    Except.error "BPS_CHECK_NE(rank, root) failed"
  else
    match nonRootRecvLoop root rank msgs (emit Event.NcclGroupStart st) [] with
    | Except.error e => Except.error e
    | Except.ok (st1, ts, remaining) =>
        Except.ok ({ (emit Event.EventRecord (emit Event.EventCreate
                        (emit Event.NcclGroupEnd st1))) with
                     ncclGroups := st1.ncclGroups ++ [{ tasks := ts, queues := [] }] },
                   remaining)

/-- The per-item loop of RunSyncNcclOnce: FinishOrProceed every task of
the group; reportFinish is issued only while the queues vector of the
entry still covers the index. -/
def syncTasks : List TensorTableEntry → List QueueType → EngineState →
    Except String EngineState
  | [], _, st => Except.ok st
  | t :: ts, [], st =>
      match FinishOrProceed t st with
      | Except.error e => Except.error e
      | Except.ok st1 => syncTasks ts [] st1
  | t :: ts, q :: qs, st =>
      match FinishOrProceed t st with
      | Except.error e => Except.error e
      | Except.ok st1 => syncTasks ts qs (emit (Event.ReportFinish q t.len) st1)

/-- RunSyncNcclOnce: dequeue a completed group, block on its accelerator
event, advance every item of the group, then destroy the event. -/
def RunSyncNcclOnce (st : EngineState) : Except String EngineState :=
  match st.ncclGroups with
  | [] => Except.ok (emit Event.Sleep st)
  | entry :: rest =>
      match syncTasks entry.tasks entry.queues
              (emit Event.EventSynchronize { st with ncclGroups := rest }) with
      | Except.error e => Except.error e
      | Except.ok st1 => Except.ok (emit Event.EventDestroy st1)

/-- The byte size of the tensor an entry describes: the input tensor
when present, otherwise the output tensor. -/
def entrySize (e : TensorTableEntry) : Nat :=
  match e.tensor with
  | some t => t.size
  | none =>
      match e.output with
      | some o => o.size
      | none => 0

/-- One partition built by PartitionTensor: tensor_name extended with
"_" and the partition index, window set to the accumulated offset and
the bounded length, every other field copied from the original entry
(the key is assigned later by EnqueueTensor). -/
def mkPartition (e : TensorTableEntry) (size acc i bound : Nat) : TensorTableEntry :=
  { tensor_name := e.tensor_name ++ "_" ++ toString i,
    key := 0,
    contextId := e.contextId,
    ready_event := e.ready_event,
    device := e.device,
    priority := e.priority,
    version := e.version,
    tensor := e.tensor,
    output := e.output,
    offset := acc,
    len := if (size - acc) > bound then bound else (size - acc),
    cpubuff := e.cpubuff,
    queue_list := e.queue_list,
    counterId := e.counterId,
    total_partnum := e.total_partnum,
    callbackId := e.callbackId }

/-- The accumulation loop of PartitionTensor, with explicit fuel; fuel
equal to the tensor size suffices whenever the partition bound is
positive, matching the termination assumption of the C++ loop. -/
def partGo (e : TensorTableEntry) (bound size : Nat) :
    Nat → Nat → Nat → List TensorTableEntry
  | 0, _, _ => []
  | Nat.succ fuel, acc, i =>
      if acc < size then
        let p := mkPartition e size acc i bound
        p :: partGo e bound size fuel (acc + p.len) (i + 1)
      else []

/-- PartitionTensor: split an entry into partitions of at most bound
bytes covering the tensor. -/
def PartitionTensor (e : TensorTableEntry) (bound : Nat) : List TensorTableEntry :=
  partGo e bound (entrySize e) (entrySize e) 0 0

/-- The entry EnqueueTensor builds before partitioning: a fresh shared
counter starting at zero and total_partnum equal to the key_list size of
the context. -/
def newEntry (ctx : BPSContext) (input output : Option Tensor) (ready_event : Nat)
    (name : String) (device priority version : Int) (callbackId : Nat)
    (queue_list : List QueueType) (st : EngineState) : TensorTableEntry :=
  { tensor_name := name,
    key := 0,
    contextId := ctx.contextId,
    ready_event := ready_event,
    device := device,
    priority := priority,
    version := version,
    tensor := input,
    output := output,
    offset := 0,
    len := 0,
    cpubuff := ctx.cpubuff,
    queue_list := queue_list,
    counterId := st.nextCounterId,
    total_partnum := (ctx.key_list.length : Int),
    callbackId := callbackId }

/-- The fatal size check at the top of EnqueueTensor fires exactly when
both tensors are supplied and their byte sizes differ. -/
def sizeMismatch (input output : Option Tensor) : Bool :=
  match input, output with
  | some a, some b => a.size ≠ b.size
  | _, _ => false

/-- The enqueue loop of EnqueueTensor: assign each partition its key
from the key_list and add it to the queue of the head stage. -/
def enqueueParts : List (TensorTableEntry × Nat) → QueueType → EngineState → EngineState
  | [], _, st => st
  | (t, k) :: rest, q, st => enqueueParts rest q (addTask q { t with key := k } st)

/-- EnqueueTensor: check matching input/output sizes, build the entry
with a fresh shared counter, partition it, check the partition count
against the key_list, fire the callback immediately when the queue_list
is empty, otherwise enqueue every partition on the head stage queue and
check that the partition lengths cover the tensor. -/
def EnqueueTensor (ctx : BPSContext) (input output : Option Tensor) (ready_event : Nat)
    (name : String) (device priority version : Int) (callbackId : Nat)
    (queue_list : List QueueType) (bound : Nat) (st : EngineState) :
    Except String EngineState :=
  if sizeMismatch input output then
    Except.error "BPS_CHECK_EQ(input size, output size) failed: output tensor size does not match"
  else
    let e := newEntry ctx input output ready_event name device priority version
               callbackId queue_list st
    let st1 := { st with nextCounterId := st.nextCounterId + 1,
                         counters := setCounter st.counters e.counterId 0 }
    let partitions := PartitionTensor e bound
    if ctx.key_list.length ≠ partitions.length then
      Except.error "BPS_CHECK_EQ(key_list.size, partitions.size) failed"
    else if e.queue_list.length = 0 then
      Except.ok (emit (Event.Callback e.callbackId true) st1)
    else
      let st2 := enqueueParts (partitions.zip ctx.key_list)
                   (e.queue_list.headD QueueType.REDUCE) st1
      if ((partitions.map (fun p => p.len)).sum) ≠ entrySize e then
        Except.error "BPS_CHECK_EQ(accumulated, size) failed"
      else
        Except.ok st2

/-- The stage loop functions byteps_init can start. -/
inductive LoopName
  | RootNcclLoop
  | SyncNcclLoop
  | CopyDevice2HostLoop
  | PushLoop
  | PullLoop
  | CopyHost2DeviceLoop
  | CoordinateReduceLoop
  | NonRootNcclLoop
  | CoordinateBroadcastLoop
deriving DecidableEq, Repr

/-- byteps_init: the list of loop functions started for the given role,
in the order the C++ source pushes them. -/
def byteps_init (isRoot isDistributedJob : Bool) : List LoopName :=
  if isRoot then
    [LoopName.RootNcclLoop, LoopName.SyncNcclLoop] ++
      (if isDistributedJob then
        [LoopName.CopyDevice2HostLoop, LoopName.PushLoop,
         LoopName.PullLoop, LoopName.CopyHost2DeviceLoop]
       else [])
  else
    [LoopName.CoordinateReduceLoop, LoopName.NonRootNcclLoop,
     LoopName.SyncNcclLoop, LoopName.CoordinateBroadcastLoop]

/-- Modelled from the spec: CpuReducer::sum(dst, src1, src2, len, dtype,
alpha) is not under src/ (only its caller UpdateMom is); following the
call-site comment m_t = mu * m_(t-1) + g_t it computes, element-wise,
dst = src1 + alpha * src2, here over exact rationals. -/
def cpuReducerSum (src1 src2 : List ℚ) (alpha : ℚ) : List ℚ :=
  List.zipWith (fun a b => a + alpha * b) src1 src2

/-- The pair of buffers UpdateMom operates on. -/
structure GradMomBufs where
  grad : List ℚ
  mom : List ℚ
deriving DecidableEq, Repr

namespace VanillaMomentumCompressor

/-- VanillaMomentumCompressor::UpdateMom: the call
cpu_reducer->sum(mom.data, grad.data, mom.data, grad.size, dtype, mu)
overwrites the momentum buffer with grad + mu * mom. -/
def UpdateMom (mu : ℚ) (s : GradMomBufs) : GradMomBufs :=
  { s with mom := cpuReducerSum s.grad s.mom mu }

end VanillaMomentumCompressor

/-- Trace projection for the non-root loop result, which also returns
the unconsumed signals. -/
def res2Events : Except String (EngineState × List BytePSCommMsg) → List Event
  | Except.ok p => p.1.events
  | Except.error _ => []

/-! Concrete fixtures used by witnesses and counterexamples. -/

def emptyQueues : Queues :=
  { coordinateReduceQ := [], reduceQ := [], copyD2HQ := [], pushQ := [],
    pullQ := [], copyH2DQ := [], coordinateBroadcastQ := [], broadcastQ := [] }

def emptyState : EngineState :=
  { queues := emptyQueues, counters := [], nextCounterId := 0,
    ncclGroups := [], events := [] }

def gpuTensor8 : Tensor := { size := 8, numElements := 2, dtype := 0, hasData := true }

def baseTask : TensorTableEntry :=
  { tensor_name := "grad", key := 7, contextId := 0, ready_event := 0, device := 0,
    priority := 0, version := 0, tensor := some gpuTensor8, output := some gpuTensor8,
    offset := 0, len := 8, cpubuff := 0,
    queue_list := [QueueType.REDUCE, QueueType.COORDINATE_BROADCAST, QueueType.BROADCAST],
    counterId := 0, total_partnum := 1, callbackId := 5 }

/-- The item as it sits on the non-root REDUCE queue after the
CoordinateReduce stage advanced it: three stages remain. -/
def c3State : EngineState :=
  { emptyState with queues := { emptyQueues with reduceQ := [baseTask] } }

def c3Msgs : List BytePSCommMsg :=
  [{ src := 0, signal := SignalKind.DO_REDUCE, key := 7 },
   { src := 0, signal := SignalKind.DO_GROUP, key := 0 }]

def broadcastStageTask : TensorTableEntry :=
  { baseTask with key := 9, queue_list := [QueueType.BROADCAST] }

def c3StateB : EngineState :=
  { emptyState with queues := { emptyQueues with broadcastQ := [broadcastStageTask] } }

def c3MsgsB : List BytePSCommMsg :=
  [{ src := 0, signal := SignalKind.DO_BROADCAST, key := 9 },
   { src := 0, signal := SignalKind.DO_GROUP, key := 0 }]

def c2Ctx : BPSContext :=
  { contextId := 0, cpubuff := 0, buff_len := 4, key_list := [11], initialized := true }

def tensor4 : Tensor := { size := 4, numElements := 1, dtype := 0, hasData := true }

def tensor8u : Tensor := { size := 8, numElements := 1, dtype := 0, hasData := true }

def c2Run : Except String EngineState :=
  EnqueueTensor c2Ctx (some tensor4) (some tensor8u) 0 "x" 0 0 0 77
    [QueueType.REDUCE] 1024 emptyState

def c4Task : TensorTableEntry :=
  { baseTask with queue_list := [QueueType.REDUCE, QueueType.BROADCAST] }

def c4State : EngineState :=
  { emptyState with queues := { emptyQueues with reduceQ := [c4Task] } }

def c4Trace : List Event :=
  [Event.NcclGroupStart,
   Event.BroadcastSignal 0 SignalKind.DO_REDUCE 7,
   Event.NcclCall NcclOpKind.reduceOp 7,
   Event.BroadcastSignal 0 SignalKind.DO_GROUP 0,
   Event.NcclGroupEnd, Event.EventCreate, Event.EventRecord]

def c5FinalTask : TensorTableEntry :=
  { baseTask with queue_list := [QueueType.BROADCAST] }

/-- A pending NCCL group as the non-root loop builds it: the queues
vector is left empty. -/
def c5State : EngineState :=
  { emptyState with ncclGroups := [{ tasks := [c5FinalTask], queues := [] }] }

/-! Claim theorems. -/

/-- C9: byteps_init starts exactly the role-appropriate loop set: on a
root device the RootNccl and SyncNccl loops, plus the CopyD2H, Push,
Pull and CopyH2D loops if and only if the job is distributed; on a
non-root device exactly the CoordinateReduce, NonRootNccl, SyncNccl and
CoordinateBroadcast loops; a distributed root starts at least 5 loop
threads and a non-root at least 4. -/
theorem c9_byteps_init_loops :
    byteps_init true true =
      [LoopName.RootNcclLoop, LoopName.SyncNcclLoop, LoopName.CopyDevice2HostLoop,
       LoopName.PushLoop, LoopName.PullLoop, LoopName.CopyHost2DeviceLoop]
    ∧ byteps_init true false = [LoopName.RootNcclLoop, LoopName.SyncNcclLoop]
    ∧ (∀ d : Bool, byteps_init false d =
        [LoopName.CoordinateReduceLoop, LoopName.NonRootNcclLoop,
         LoopName.SyncNcclLoop, LoopName.CoordinateBroadcastLoop])
    ∧ (∀ d : Bool, (LoopName.CopyDevice2HostLoop ∈ byteps_init true d ↔ d = true))
    ∧ (∀ d : Bool, (LoopName.PushLoop ∈ byteps_init true d ↔ d = true))
    ∧ (∀ d : Bool, (LoopName.PullLoop ∈ byteps_init true d ↔ d = true))
    ∧ (∀ d : Bool, (LoopName.CopyHost2DeviceLoop ∈ byteps_init true d ↔ d = true))
    ∧ 5 ≤ (byteps_init true true).length
    ∧ (∀ d : Bool, 4 ≤ (byteps_init false d).length) := by
  refine ⟨rfl, rfl, ?_, ?_, ?_, ?_, ?_, by decide, ?_⟩ <;>
    (intro d; cases d <;> decide)

/-- C10: UpdateMom of the vanilla momentum compressor replaces the
momentum with mu * m + g element-wise and leaves the gradient buffer
unchanged. -/
theorem c10_vanilla_momentum_update (mu : ℚ) (s : GradMomBufs) :
    (VanillaMomentumCompressor.UpdateMom mu s).grad = s.grad
    ∧ (VanillaMomentumCompressor.UpdateMom mu s).mom =
        List.zipWith (fun m g => mu * m + g) s.mom s.grad := by
  refine ⟨rfl, ?_⟩
  show cpuReducerSum s.grad s.mom mu = _
  have h : ∀ (a b : List ℚ),
      List.zipWith (fun g m => g + mu * m) a b =
      List.zipWith (fun m g => mu * m + g) b a := by
    intro a
    induction a with
    | nil => intro b; cases b <;> rfl
    | cons x xs ih =>
        intro b
        cases b with
        | nil => rfl
        | cons y ys =>
            simp only [List.zipWith_cons_cons]
            rw [ih ys, add_comm x (mu * y)]
  exact h s.grad s.mom

/-- C3: on the DO_REDUCE signal for an item that the CoordinateReduce
stage enqueued with the non-root queue list, the keyed lookup finds the
item but the internal size-one check on its queue_list fires fatally
(the remaining list has three stages), so no ncclReduce is issued; the
DO_BROADCAST path, whose item really has one remaining stage, passes the
checks and issues ncclBroadcast. -/
theorem c3_nonroot_reduce_check_fires :
    RunNonRootNcclLoopOnce 0 1 c3Msgs c3State =
      Except.error "BPS_CHECK_EQ(queue_list.size, 1) failed: BROADCAST should be the last op"
    ∧ res2Events (RunNonRootNcclLoopOnce 0 1 c3MsgsB c3StateB) =
      [Event.NcclGroupStart, Event.NcclCall NcclOpKind.broadcastOp 9,
       Event.NcclGroupEnd, Event.EventCreate, Event.EventRecord] :=
  ⟨rfl, rfl⟩

/-- C2 counterexample: at an EnqueueTensor call whose input tensor has 4
bytes and whose output tensor has 8 bytes, the embedded run aborts with
the fatal size-check error; no callback of any status is invoked and no
partition is enqueued, refuting the claimed failure-status callback. -/
theorem c2_counterexample :
    c2Run = Except.error
      "BPS_CHECK_EQ(input size, output size) failed: output tensor size does not match"
    ∧ (resEvents c2Run).countP isCallback = 0
    ∧ (resEvents c2Run).countP isAddTask = 0
    ∧ resIsOk c2Run = false :=
  ⟨rfl, rfl, rfl, rfl⟩

/-- C2 amended: for every call to EnqueueTensor in which both tensors
are supplied and their byte sizes differ, the fatal size check fires
(modelled as an error, aborting the process): the user callback is not
invoked at all, no partition is enqueued on any queue, and the engine
state is unchanged. -/
theorem c2_size_mismatch_aborts (ctx : BPSContext) (ti tou : Tensor) (ready_event : Nat)
    (name : String) (device priority version : Int) (cb : Nat)
    (queue_list : List QueueType) (bound : Nat) (st : EngineState)
    (hne : ti.size ≠ tou.size) :
    EnqueueTensor ctx (some ti) (some tou) ready_event name device priority version cb
        queue_list bound st =
      Except.error
        "BPS_CHECK_EQ(input size, output size) failed: output tensor size does not match"
    ∧ resIsOk (EnqueueTensor ctx (some ti) (some tou) ready_event name device priority
        version cb queue_list bound st) = false
    ∧ resEvents (EnqueueTensor ctx (some ti) (some tou) ready_event name device priority
        version cb queue_list bound st) = [] := by
  have hm : sizeMismatch (some ti) (some tou) = true := by
    simp [sizeMismatch, hne]
  refine ⟨?_, ?_, ?_⟩ <;> simp [EnqueueTensor, hm, resIsOk, resEvents]

/-- C2 witness: the amended theorem applied at the concrete mismatched
call of the counterexample input. -/
theorem c2_size_mismatch_aborts_witness :
    EnqueueTensor c2Ctx (some tensor4) (some tensor8u) 0 "x" 0 0 0 77
        [QueueType.REDUCE] 1024 emptyState =
      Except.error
        "BPS_CHECK_EQ(input size, output size) failed: output tensor size does not match" :=
  (c2_size_mismatch_aborts c2Ctx tensor4 tensor8u 0 "x" 0 0 0 77
    [QueueType.REDUCE] 1024 emptyState (by decide)).1

/-- C4 counterexample: in a root iteration that pulled one REDUCE item,
the trace shows the DO_GROUP broadcast strictly before ncclGroupEnd,
refuting the claimed group-end-first order. -/
theorem c4_counterexample :
    resEvents (RunRootNcclLoopOnce 2 1 0 0 c4State) = c4Trace
    ∧ precedesB (Event.BroadcastSignal 0 SignalKind.DO_GROUP 0) Event.NcclGroupEnd c4Trace = true
    ∧ precedesB Event.NcclGroupEnd (Event.BroadcastSignal 0 SignalKind.DO_GROUP 0) c4Trace = false :=
  ⟨rfl, rfl, rfl⟩

/-- C5 counterexample: a dequeued group whose queues vector is empty, as
every group built by the non-root loop is, advances its single item but
issues no reportFinish at all, refuting the claim that reportFinish is
called for every item on every rank. -/
theorem c5_counterexample :
    resEvents (RunSyncNcclOnce c5State) =
      [Event.EventSynchronize, Event.Callback 5 true, Event.EventDestroy]
    ∧ (resEvents (RunSyncNcclOnce c5State)).countP isReportFinish = 0
    ∧ resIsOk (RunSyncNcclOnce c5State) = true :=
  ⟨rfl, rfl, rfl⟩

/-! Helper lemmas. -/

theorem getCounter_setCounter (l : List (Nat × Int)) (cid : Nat) (v : Int) :
    getCounter (setCounter l cid v) cid = v := by
  induction l with
  | nil => simp [getCounter, setCounter]
  | cons p rest ih =>
      by_cases h : p.fst = cid
      · simp [setCounter, h, getCounter]
      · simp [setCounter, h, getCounter, ih]

/-- A final-stage FinishOrProceed call changes only the shared counter
and possibly fires the callback. -/
theorem finishOrProceed_final (task : TensorTableEntry) (st : EngineState)
    (op : QueueType) (hql : task.queue_list = [op]) :
    FinishOrProceed task st =
      Except.ok { st with
        counters := setCounter st.counters task.counterId
                      (getCounter st.counters task.counterId + 1),
        events := st.events ++
          (if getCounter st.counters task.counterId = task.total_partnum - 1
           then [Event.Callback task.callbackId true] else []) } := by
  simp only [FinishOrProceed, hql]
  by_cases hv : getCounter st.counters task.counterId = task.total_partnum - 1
  · simp [hv]
  · simp [hv]

/-- The sequential composition of final FinishOrProceed calls used to
account for the completion of every partition of one tensor. -/
def runFinishAll : List TensorTableEntry → EngineState → Except String EngineState
  | [], st => Except.ok st
  | t :: ts, st =>
      match FinishOrProceed t st with
      | Except.error e => Except.error e
      | Except.ok st1 => runFinishAll ts st1

/-- A canonical partition at its final stage: singleton queue_list,
shared counter cid, total_partnum n, callback cb. -/
def finalStageTask (q : QueueType) (cid : Nat) (n : Int) (cb : Nat) : TensorTableEntry :=
  { tensor_name := "t", key := 0, contextId := 0, ready_event := 0, device := 0,
    priority := 0, version := 0, tensor := none, output := none, offset := 0,
    len := 0, cpubuff := 0, queue_list := [q], counterId := cid,
    total_partnum := n, callbackId := cb }

theorem runFinishAll_final (q : QueueType) (cid : Nat) (n : Int) (cb : Nat) :
    ∀ (m : Nat) (st : EngineState),
      resIsOk (runFinishAll (List.replicate m (finalStageTask q cid n cb)) st) = true
      ∧ resCounter cid (runFinishAll (List.replicate m (finalStageTask q cid n cb)) st)
          = getCounter st.counters cid + m
      ∧ resEvents (runFinishAll (List.replicate m (finalStageTask q cid n cb)) st)
          = st.events ++
            (if getCounter st.counters cid ≤ n - 1
                ∧ n - 1 < getCounter st.counters cid + m
             then [Event.Callback cb true] else []) := by
  intro m
  induction m with
  | zero =>
      intro st
      refine ⟨rfl, by simp [resCounter, runFinishAll], ?_⟩
      have hc : ¬ (getCounter st.counters cid ≤ n - 1
          ∧ n - 1 < getCounter st.counters cid + (0 : Nat)) := by omega
      simp [resEvents, runFinishAll, hc]
  | succ k ih =>
      intro st
      have hfp := finishOrProceed_final (finalStageTask q cid n cb) st q rfl
      have hrep : List.replicate (k + 1) (finalStageTask q cid n cb)
          = finalStageTask q cid n cb :: List.replicate k (finalStageTask q cid n cb) := rfl
      rw [hrep]
      simp only [runFinishAll, hfp]
      set st2 : EngineState :=
        { st with
          counters := setCounter st.counters (finalStageTask q cid n cb).counterId
                        (getCounter st.counters (finalStageTask q cid n cb).counterId + 1),
          events := st.events ++
            (if getCounter st.counters (finalStageTask q cid n cb).counterId
                  = (finalStageTask q cid n cb).total_partnum - 1
             then [Event.Callback (finalStageTask q cid n cb).callbackId true] else []) }
        with hst2
      obtain ⟨ih1, ih2, ih3⟩ := ih st2
      have hcnt : getCounter st2.counters cid = getCounter st.counters cid + 1 := by
        rw [hst2]
        exact getCounter_setCounter st.counters cid (getCounter st.counters cid + 1)
      refine ⟨ih1, ?_, ?_⟩
      · rw [ih2, hcnt]; push_cast; ring
      · rw [ih3, hcnt]
        by_cases hv : getCounter st.counters cid = n - 1
        · have h1 : ¬ (getCounter st.counters cid + 1 ≤ n - 1
              ∧ n - 1 < getCounter st.counters cid + 1 + (k : Nat)) := by omega
          have h2 : (getCounter st.counters cid ≤ n - 1
              ∧ n - 1 < getCounter st.counters cid + ((k : Nat) + 1 : Nat)) := by
            constructor <;> omega
          rw [hst2]
          simp only [finalStageTask]
          simp [hv, h1, h2]
          rw [if_pos (show n - 1 < n + (k : Int) by omega)]
        · have hiff : (getCounter st.counters cid + 1 ≤ n - 1
              ∧ n - 1 < getCounter st.counters cid + 1 + (k : Nat))
              ↔ (getCounter st.counters cid ≤ n - 1
                 ∧ n - 1 < getCounter st.counters cid + ((k : Nat) + 1 : Nat)) := by
            omega
          rw [hst2]
          simp only [finalStageTask]
          simp [hv, hiff]

/-- C1: FinishOrProceed removes the head stage; with stages remaining it
enqueues the item on the queue of the new head stage; at the final stage
it increments the shared counter and fires the success callback exactly
when the pre-increment value equals total_partnum - 1; over the n
partitions of one tensor the callback therefore fires exactly once,
namely at the n-th final-stage call, after every partition finished. -/
theorem c1_finish_or_proceed :
    (∀ (task : TensorTableEntry) (st : EngineState) (op nq : QueueType)
       (more : List QueueType),
       task.queue_list = op :: nq :: more →
       FinishOrProceed task st =
         Except.ok (addTask nq { task with queue_list := nq :: more } st))
    ∧ (∀ (task : TensorTableEntry) (st : EngineState) (op : QueueType),
       task.queue_list = [op] →
       FinishOrProceed task st =
         Except.ok { st with
           counters := setCounter st.counters task.counterId
                         (getCounter st.counters task.counterId + 1),
           events := st.events ++
             (if getCounter st.counters task.counterId = task.total_partnum - 1
              then [Event.Callback task.callbackId true] else []) })
    ∧ (∀ (q : QueueType) (cid cb n : Nat) (st : EngineState),
       1 ≤ n → getCounter st.counters cid = 0 →
       resEvents (runFinishAll
           (List.replicate n (finalStageTask q cid (n : Int) cb)) st)
         = st.events ++ [Event.Callback cb true]
       ∧ resCounter cid (runFinishAll
           (List.replicate n (finalStageTask q cid (n : Int) cb)) st) = (n : Int)
       ∧ resEvents (runFinishAll
           (List.replicate (n - 1) (finalStageTask q cid (n : Int) cb)) st)
         = st.events) := by
  refine ⟨?_, ?_, ?_⟩
  · intro task st op nq more hql
    simp [FinishOrProceed, hql]
  · intro task st op hql
    exact finishOrProceed_final task st op hql
  · intro q cid cb n st hn h0
    obtain ⟨-, h2, h3⟩ := runFinishAll_final q cid (n : Int) cb n st
    obtain ⟨-, -, h3p⟩ := runFinishAll_final q cid (n : Int) cb (n - 1) st
    refine ⟨?_, ?_, ?_⟩
    · rw [h3, h0]
      rw [if_pos (show (0 : Int) ≤ (n : Int) - 1 ∧ (n : Int) - 1 < 0 + (n : Nat) from by
        constructor <;> omega)]
    · rw [h2, h0]; omega
    · rw [h3p, h0]
      rw [if_neg (show ¬ ((0 : Int) ≤ (n : Int) - 1
          ∧ (n : Int) - 1 < 0 + ((n - 1 : Nat) : Int)) from by omega)]
      simp

/-- C1 witness: the three parts of the theorem at concrete inputs: an
item with two remaining stages is enqueued on the next queue; a
final-stage item with pre-increment value 0 and total_partnum 1 fires
the callback; two final-stage partitions sharing one counter fire the
callback exactly once, at the second call. -/
theorem c1_finish_or_proceed_witness :
    FinishOrProceed { baseTask with
        queue_list := [QueueType.COORDINATE_REDUCE, QueueType.REDUCE] } emptyState =
      Except.ok (addTask QueueType.REDUCE
        { { baseTask with queue_list := [QueueType.COORDINATE_REDUCE, QueueType.REDUCE] }
            with queue_list := [QueueType.REDUCE] } emptyState)
    ∧ FinishOrProceed c5FinalTask emptyState =
        Except.ok { emptyState with
          counters := setCounter emptyState.counters c5FinalTask.counterId
                        (getCounter emptyState.counters c5FinalTask.counterId + 1),
          events := emptyState.events ++
            (if getCounter emptyState.counters c5FinalTask.counterId
                  = c5FinalTask.total_partnum - 1
             then [Event.Callback c5FinalTask.callbackId true] else []) }
    ∧ resEvents (runFinishAll
        (List.replicate 2 (finalStageTask QueueType.BROADCAST 0 (2 : Int) 9)) emptyState)
        = emptyState.events ++ [Event.Callback 9 true]
    ∧ resEvents (runFinishAll
        (List.replicate (2 - 1) (finalStageTask QueueType.BROADCAST 0 (2 : Int) 9)) emptyState)
        = emptyState.events := by
  refine ⟨?_, ?_, ?_, ?_⟩
  · exact c1_finish_or_proceed.1 _ emptyState QueueType.COORDINATE_REDUCE
      QueueType.REDUCE [] rfl
  · exact c1_finish_or_proceed.2.1 c5FinalTask emptyState QueueType.BROADCAST rfl
  · exact (c1_finish_or_proceed.2.2 QueueType.BROADCAST 0 9 2 emptyState
      (by decide) rfl).1
  · exact (c1_finish_or_proceed.2.2 QueueType.BROADCAST 0 9 2 emptyState
      (by decide) rfl).2.2

/-- C7: a coordinate-stage iteration that dequeues an item advances it
via FinishOrProceed, which enqueues it on the NCCL stage queue of the
non-root (REDUCE for CoordinateReduce, BROADCAST for
CoordinateBroadcast), strictly before sending the REDUCE_READY or
BCAST_READY signal carrying the local rank and the key to the root: the
trace places the AddTask event before the SendSignal event, and the
keyed item is on the NCCL queue in the resulting state. -/
theorem c7_coordinate_enqueue_before_signal :
    (∀ (root rank : Nat) (st : EngineState) (task : TensorTableEntry)
       (restQ : List TensorTableEntry),
       getTask (getQ st.queues QueueType.COORDINATE_REDUCE) = some (task, restQ) →
       task.queue_list = [QueueType.COORDINATE_REDUCE, QueueType.REDUCE,
                          QueueType.COORDINATE_BROADCAST, QueueType.BROADCAST] →
       resEvents (RunCoordinateLoopOnce QueueType.COORDINATE_REDUCE false root rank st)
         = st.events ++
             [Event.AddTask QueueType.REDUCE task.key,
              Event.SendSignal root rank SignalKind.REDUCE_READY task.key,
              Event.ReportFinish QueueType.COORDINATE_REDUCE task.len]
       ∧ resQueue QueueType.REDUCE
           (RunCoordinateLoopOnce QueueType.COORDINATE_REDUCE false root rank st)
         = getQ st.queues QueueType.REDUCE ++
             [{ task with queue_list := [QueueType.REDUCE,
                 QueueType.COORDINATE_BROADCAST, QueueType.BROADCAST] }])
    ∧ (∀ (root rank : Nat) (st : EngineState) (task : TensorTableEntry)
       (restQ : List TensorTableEntry),
       getTask (getQ st.queues QueueType.COORDINATE_BROADCAST) = some (task, restQ) →
       task.queue_list = [QueueType.COORDINATE_BROADCAST, QueueType.BROADCAST] →
       resEvents (RunCoordinateLoopOnce QueueType.COORDINATE_BROADCAST false root rank st)
         = st.events ++
             [Event.AddTask QueueType.BROADCAST task.key,
              Event.SendSignal root rank SignalKind.BCAST_READY task.key,
              Event.ReportFinish QueueType.COORDINATE_BROADCAST task.len]
       ∧ resQueue QueueType.BROADCAST
           (RunCoordinateLoopOnce QueueType.COORDINATE_BROADCAST false root rank st)
         = getQ st.queues QueueType.BROADCAST ++
             [{ task with queue_list := [QueueType.BROADCAST] }]) := by
  constructor
  · intro root rank st task restQ hget hql
    have hget2 : getTask st.queues.coordinateReduceQ = some (task, restQ) := hget
    constructor
    · simp [RunCoordinateLoopOnce, getQ, hget2, FinishOrProceed, hql, resEvents, emit,
        addTask, setQ]
    · simp [RunCoordinateLoopOnce, getQ, hget2, FinishOrProceed, hql, resQueue, emit,
        addTask, setQ]
  · intro root rank st task restQ hget hql
    have hget2 : getTask st.queues.coordinateBroadcastQ = some (task, restQ) := hget
    constructor
    · simp [RunCoordinateLoopOnce, getQ, hget2, FinishOrProceed, hql, resEvents, emit,
        addTask, setQ]
    · simp [RunCoordinateLoopOnce, getQ, hget2, FinishOrProceed, hql, resQueue, emit,
        addTask, setQ]

def c7Task : TensorTableEntry :=
  { baseTask with
    key := 3,
    queue_list := [QueueType.COORDINATE_REDUCE, QueueType.REDUCE,
                   QueueType.COORDINATE_BROADCAST, QueueType.BROADCAST] }

def c7State : EngineState :=
  { emptyState with queues := { emptyQueues with coordinateReduceQ := [c7Task] } }

/-- C7 witness: the CoordinateReduce part of the theorem at a concrete
one-item queue state. -/
theorem c7_coordinate_enqueue_before_signal_witness :
    resEvents (RunCoordinateLoopOnce QueueType.COORDINATE_REDUCE false 0 1 c7State)
      = c7State.events ++
          [Event.AddTask QueueType.REDUCE c7Task.key,
           Event.SendSignal 0 1 SignalKind.REDUCE_READY c7Task.key,
           Event.ReportFinish QueueType.COORDINATE_REDUCE c7Task.len]
    ∧ resQueue QueueType.REDUCE
        (RunCoordinateLoopOnce QueueType.COORDINATE_REDUCE false 0 1 c7State)
      = getQ c7State.queues QueueType.REDUCE ++
          [{ c7Task with queue_list := [QueueType.REDUCE,
              QueueType.COORDINATE_BROADCAST, QueueType.BROADCAST] }] :=
  c7_coordinate_enqueue_before_signal.1 0 1 c7State c7Task [] rfl rfl

/-- C8: EnqueueTensor with an empty queue_list (and a key_list matching
the partition count so the internal check passes) fires the user
callback synchronously with success, adds no item to any queue, and
returns success; only the fresh shared counter allocation changes the
state. -/
theorem c8_empty_queue_list (ctx : BPSContext) (input output : Option Tensor)
    (ready_event : Nat) (name : String) (device priority version : Int)
    (cb bound : Nat) (st : EngineState)
    (hsz : sizeMismatch input output = false)
    (hk : ctx.key_list.length =
       (PartitionTensor (newEntry ctx input output ready_event name device priority
          version cb [] st) bound).length) :
    EnqueueTensor ctx input output ready_event name device priority version cb [] bound st
      = Except.ok (emit (Event.Callback cb true)
          { st with nextCounterId := st.nextCounterId + 1,
                    counters := setCounter st.counters st.nextCounterId 0 })
    ∧ (∀ q : QueueType,
        resQueue q (EnqueueTensor ctx input output ready_event name device priority
          version cb [] bound st) = getQ st.queues q)
    ∧ resEvents (EnqueueTensor ctx input output ready_event name device priority
          version cb [] bound st) = st.events ++ [Event.Callback cb true]
    ∧ resIsOk (EnqueueTensor ctx input output ready_event name device priority
          version cb [] bound st) = true := by
  have h1 : EnqueueTensor ctx input output ready_event name device priority version
      cb [] bound st
      = Except.ok (emit (Event.Callback cb true)
          { st with nextCounterId := st.nextCounterId + 1,
                    counters := setCounter st.counters st.nextCounterId 0 }) := by
    simp only [EnqueueTensor, hsz, Bool.false_eq_true, if_false, ← hk]
    simp [newEntry, emit]
  refine ⟨h1, fun q => ?_, ?_, ?_⟩ <;> rw [h1] <;> rfl

def c8Ctx : BPSContext :=
  { contextId := 0, cpubuff := 0, buff_len := 4, key_list := [11], initialized := true }

/-- C8 witness: the theorem at a concrete call enqueuing a 4-byte tensor
with an empty queue_list. -/
theorem c8_empty_queue_list_witness :
    EnqueueTensor c8Ctx (some tensor4) none 0 "x" 0 0 0 77 [] 1024 emptyState
      = Except.ok (emit (Event.Callback 77 true)
          { emptyState with nextCounterId := emptyState.nextCounterId + 1,
                            counters := setCounter emptyState.counters
                              emptyState.nextCounterId 0 })
    ∧ resEvents (EnqueueTensor c8Ctx (some tensor4) none 0 "x" 0 0 0 77 [] 1024 emptyState)
      = emptyState.events ++ [Event.Callback 77 true] :=
  ⟨(c8_empty_queue_list c8Ctx (some tensor4) none 0 "x" 0 0 0 77 1024 emptyState
      rfl (by decide)).1,
   (c8_empty_queue_list c8Ctx (some tensor4) none 0 "x" 0 0 0 77 1024 emptyState
      rfl (by decide)).2.2.1⟩

/-- C4 amended: in every root iteration that pulled at least one item,
the root broadcasts DO_GROUP first, then ends the NCCL group, then
records an accelerator event on the collective stream and hands the
batch to the SyncNccl stage; in every iteration that pulled no items it
closes the empty group and idles. -/
theorem c4_root_group_order (localSize groupSize root rank : Nat)
    (st st1 : EngineState) (ts : List TensorTableEntry) (qs : List QueueType)
    (hrank : rank = root)
    (hc : rootCollectBoth localSize groupSize rank (emit Event.NcclGroupStart st)
            = Except.ok (st1, ts, qs)) :
    (ts ≠ [] →
       RunRootNcclLoopOnce localSize groupSize root rank st =
         Except.ok { (emit Event.EventRecord (emit Event.EventCreate
             (emit Event.NcclGroupEnd
               (emit (Event.BroadcastSignal rank SignalKind.DO_GROUP 0) st1)))) with
           ncclGroups := st1.ncclGroups ++ [{ tasks := ts, queues := qs }] })
    ∧ (ts = [] →
       RunRootNcclLoopOnce localSize groupSize root rank st =
         Except.ok (emit Event.Sleep (emit Event.NcclGroupEnd st1))) := by
  subst hrank
  constructor
  · intro hne
    have hl : ts.length ≠ 0 := fun h => hne (List.length_eq_zero.mp h)
    simp [RunRootNcclLoopOnce, hc, hl]
  · intro hnil
    subst hnil
    simp [RunRootNcclLoopOnce, hc]

def c4CollectedState : EngineState :=
  { emptyState with
    events := [Event.NcclGroupStart,
               Event.BroadcastSignal 0 SignalKind.DO_REDUCE 7,
               Event.NcclCall NcclOpKind.reduceOp 7] }

/-- C4 witness: the amended theorem at the concrete state of the
counterexample, whose collection phase pulls exactly one REDUCE item. -/
theorem c4_root_group_order_witness :
    RunRootNcclLoopOnce 2 1 0 0 c4State =
      Except.ok { (emit Event.EventRecord (emit Event.EventCreate
          (emit Event.NcclGroupEnd
            (emit (Event.BroadcastSignal 0 SignalKind.DO_GROUP 0) c4CollectedState)))) with
        ncclGroups := c4CollectedState.ncclGroups ++
          [{ tasks := [c4Task], queues := [QueueType.REDUCE] }] } :=
  (c4_root_group_order 2 1 0 0 c4State c4CollectedState [c4Task] [QueueType.REDUCE]
    rfl rfl).1 (by decide)

/-- FinishOrProceed never emits a ReportFinish event. -/
theorem finishOrProceed_rfCount (t : TensorTableEntry) (st st1 : EngineState)
    (h : FinishOrProceed t st = Except.ok st1) :
    st1.events.countP isReportFinish = st.events.countP isReportFinish := by
  rcases hql : t.queue_list with - | ⟨op, rest⟩
  · rw [FinishOrProceed, hql] at h
    simp at h
  · rcases rest with - | ⟨nq, more⟩
    · rw [finishOrProceed_final t st op hql] at h
      rcases h with h
      injection h with h
      subst h
      by_cases hv : getCounter st.counters t.counterId = t.total_partnum - 1 <;>
        simp [hv, List.countP_append, isReportFinish]
    · rw [FinishOrProceed, hql] at h
      simp only at h
      injection h with h
      subst h
      simp [addTask, List.countP_append, isReportFinish]

/-- The sync loop emits one ReportFinish per task while the queues
vector covers the index, and none beyond. -/
theorem syncTasks_rfCount :
    ∀ (ts : List TensorTableEntry) (qs : List QueueType) (st st2 : EngineState),
      syncTasks ts qs st = Except.ok st2 →
      st2.events.countP isReportFinish
        = st.events.countP isReportFinish + min ts.length qs.length := by
  intro ts
  induction ts with
  | nil =>
      intro qs st st2 h
      simp only [syncTasks] at h
      injection h with h
      subst h
      simp
  | cons t ts ih =>
      intro qs st st2 h
      cases qs with
      | nil =>
          simp only [syncTasks] at h
          cases hf : FinishOrProceed t st with
          | error e => rw [hf] at h; simp at h
          | ok st1 =>
              rw [hf] at h
              rw [ih [] st1 st2 h, finishOrProceed_rfCount t st st1 hf]
              simp
      | cons q qs =>
          simp only [syncTasks] at h
          cases hf : FinishOrProceed t st with
          | error e => rw [hf] at h; simp at h
          | ok st1 =>
              rw [hf] at h
              rw [ih qs (emit (Event.ReportFinish q t.len) st1) st2 h]
              simp only [emit, List.countP_append]
              rw [finishOrProceed_rfCount t st st1 hf]
              simp [isReportFinish, Nat.succ_min_succ]
              omega

/-- C5 amended: for every dequeued NCCL group entry, the SyncNccl stage
first blocks on the accelerator event of the group, then for every item
of the group calls FinishOrProceed, calling reportFinish with the length
of the item exactly for the indices covered by the queues vector of the
entry (the root loop records one originating queue per item; the
non-root loop records none), and finally destroys the event. -/
theorem c5_sync_advances_group (st : EngineState) (entry : NcclGroupEntry)
    (rest : List NcclGroupEntry) (st2 : EngineState)
    (hg : st.ncclGroups = entry :: rest)
    (hs : syncTasks entry.tasks entry.queues
            (emit Event.EventSynchronize { st with ncclGroups := rest })
          = Except.ok st2) :
    RunSyncNcclOnce st = Except.ok (emit Event.EventDestroy st2)
    ∧ st2.events.countP isReportFinish
        = st.events.countP isReportFinish + min entry.tasks.length entry.queues.length := by
  constructor
  · simp [RunSyncNcclOnce, hg, hs]
  · have h := syncTasks_rfCount entry.tasks entry.queues _ _ hs
    rw [h]
    simp [emit, List.countP_append, isReportFinish]

def c5RootState : EngineState :=
  { emptyState with
    ncclGroups := [{ tasks := [c5FinalTask], queues := [QueueType.BROADCAST] }] }

def c5SyncedState : EngineState :=
  { emptyState with
    counters := [(0, 1)],
    events := [Event.EventSynchronize, Event.Callback 5 true,
               Event.ReportFinish QueueType.BROADCAST 8] }

/-- C5 witness: the amended theorem at a concrete root-built group whose
queues vector covers its single task, so reportFinish fires once. -/
theorem c5_sync_advances_group_witness :
    RunSyncNcclOnce c5RootState = Except.ok (emit Event.EventDestroy c5SyncedState)
    ∧ c5SyncedState.events.countP isReportFinish
        = c5RootState.events.countP isReportFinish + 1 :=
  c5_sync_advances_group c5RootState
    { tasks := [c5FinalTask], queues := [QueueType.BROADCAST] } [] c5SyncedState
    rfl rfl

/-! Lemmas about the partition loop. -/

theorem mkPartition_len (e : TensorTableEntry) (size acc i bound : Nat) :
    (mkPartition e size acc i bound).len
      = if (size - acc) > bound then bound else (size - acc) := rfl

theorem partGo_stop (e : TensorTableEntry) (bound size fuel acc i : Nat)
    (h : ¬ acc < size) : partGo e bound size fuel acc i = [] := by
  cases fuel <;> simp [partGo, h]

theorem partGo_unfold (e : TensorTableEntry) (bound size fuel acc i : Nat)
    (hlt : acc < size) (hfuel : size - acc ≤ fuel) :
    partGo e bound size fuel acc i
      = mkPartition e size acc i bound ::
          partGo e bound size (fuel - 1)
            (acc + (mkPartition e size acc i bound).len) (i + 1) := by
  cases fuel with
  | zero => omega
  | succ n => simp [partGo, hlt]

theorem partGo_sum (e : TensorTableEntry) (bound size : Nat) (hB : 1 ≤ bound) :
    ∀ (fuel acc i : Nat), size - acc ≤ fuel →
      ((partGo e bound size fuel acc i).map (fun p => p.len)).sum = size - acc := by
  intro fuel
  induction fuel with
  | zero =>
      intro acc i h
      simp only [partGo, List.map_nil, List.sum_nil]
      omega
  | succ n ih =>
      intro acc i h
      by_cases hlt : acc < size
      · simp only [partGo, if_pos hlt, List.map_cons, List.sum_cons]
        have hlen := mkPartition_len e size acc i bound
        have hstep : size - (acc + (mkPartition e size acc i bound).len) ≤ n := by
          rw [hlen]; split <;> omega
        rw [ih (acc + (mkPartition e size acc i bound).len) (i + 1) hstep, hlen]
        split <;> omega
      · simp only [partGo, if_neg hlt, List.map_nil, List.sum_nil]
        omega

theorem partGo_get (e : TensorTableEntry) (bound size : Nat) (hB : 1 ≤ bound) :
    ∀ (j fuel acc i : Nat), size - acc ≤ fuel →
      (partGo e bound size fuel acc i).get? j =
        (if acc + j * bound < size
         then some (mkPartition e size (acc + j * bound) (i + j) bound)
         else none) := by
  intro j
  induction j with
  | zero =>
      intro fuel acc i hf
      simp only [Nat.zero_mul, Nat.add_zero]
      by_cases hlt : acc < size
      · cases fuel with
        | zero => omega
        | succ n =>
            simp only [partGo, if_pos hlt, List.get?_cons_zero]
      · rw [partGo_stop e bound size fuel acc i hlt]
        simp only [List.get?_nil]
        rw [if_neg hlt]
  | succ k ih =>
      intro fuel acc i hf
      by_cases hlt : acc < size
      · cases fuel with
        | zero => omega
        | succ n =>
            simp only [partGo, if_pos hlt, List.get?_cons_succ]
            have hlen := mkPartition_len e size acc i bound
            have hstep : size - (acc + (mkPartition e size acc i bound).len) ≤ n := by
              rw [hlen]; split <;> omega
            rw [ih n (acc + (mkPartition e size acc i bound).len) (i + 1) hstep, hlen]
            by_cases hbig : size - acc > bound
            · rw [if_pos hbig]
              have h1 : acc + bound + k * bound = acc + (k + 1) * bound := by ring
              have h2 : i + 1 + k = i + (k + 1) := by omega
              rw [h1, h2]
            · rw [if_neg hbig]
              have hsz : acc + (size - acc) = size := by omega
              rw [hsz]
              have hkb : bound ≤ (k + 1) * bound :=
                Nat.le_mul_of_pos_left bound (Nat.succ_pos k)
              rw [if_neg (show ¬ (size + k * bound < size) from by omega)]
              rw [if_neg (show ¬ (acc + (k + 1) * bound < size) from by omega)]
      · rw [partGo_stop e bound size fuel acc i hlt]
        simp only [List.get?_nil]
        rw [if_neg (show ¬ (acc + (k + 1) * bound < size) from by omega)]

theorem enqueueParts_events :
    ∀ (l : List (TensorTableEntry × Nat)) (q : QueueType) (st : EngineState),
      (enqueueParts l q st).events
        = st.events ++ l.map (fun pk => Event.AddTask q pk.snd) := by
  intro l
  induction l with
  | nil => intro q st; simp [enqueueParts]
  | cons p rest ih =>
      intro q st
      obtain ⟨t, k⟩ := p
      simp only [enqueueParts]
      rw [ih]
      simp [addTask]

/-- C6: for an entry over a tensor of byte size S and a positive
partition bound B, the j-th produced partition has offset j*B, length
min(B, S - j*B), tensor_name extended with the partition index, and
shares counterId, callbackId and queue_list with the original; the
partition lengths sum to S; a successful EnqueueTensor with a non-empty
queue_list enqueues exactly one partition per key of the key_list; and a
tensor of byte size 3*B + 17 with B at least 17 yields four partitions
of lengths B, B, B, 17. -/
theorem c6_partition_tensor :
    (∀ (e : TensorTableEntry) (bound j : Nat) (p : TensorTableEntry),
       1 ≤ bound → (PartitionTensor e bound).get? j = some p →
       p.offset = j * bound
       ∧ p.len = min bound (entrySize e - j * bound)
       ∧ p.tensor_name = e.tensor_name ++ "_" ++ toString j
       ∧ p.counterId = e.counterId
       ∧ p.callbackId = e.callbackId
       ∧ p.queue_list = e.queue_list)
    ∧ (∀ (e : TensorTableEntry) (bound : Nat), 1 ≤ bound →
       ((PartitionTensor e bound).map (fun p => p.len)).sum = entrySize e)
    ∧ (∀ (ctx : BPSContext) (input output : Option Tensor) (ready_event : Nat)
         (name : String) (device priority version : Int) (cb : Nat)
         (queue_list : List QueueType) (bound : Nat) (st : EngineState),
       1 ≤ bound →
       sizeMismatch input output = false →
       ctx.key_list.length =
         (PartitionTensor (newEntry ctx input output ready_event name device priority
            version cb queue_list st) bound).length →
       queue_list ≠ [] →
       resIsOk (EnqueueTensor ctx input output ready_event name device priority version
         cb queue_list bound st) = true
       ∧ (resEvents (EnqueueTensor ctx input output ready_event name device priority
            version cb queue_list bound st)).countP isAddTask
         = st.events.countP isAddTask + ctx.key_list.length)
    ∧ (∀ (e : TensorTableEntry) (bound : Nat), 17 ≤ bound →
       entrySize e = 3 * bound + 17 →
       (PartitionTensor e bound).map (fun p => p.len) = [bound, bound, bound, 17]) := by
  refine ⟨?_, ?_, ?_, ?_⟩
  · intro e bound j p hb hget
    rw [PartitionTensor,
        partGo_get e bound (entrySize e) hb j (entrySize e) 0 0 (by omega)] at hget
    by_cases hc : 0 + j * bound < entrySize e
    · rw [if_pos hc] at hget
      injection hget with hp
      subst hp
      refine ⟨by simp [mkPartition], ?_, by simp [mkPartition], rfl, rfl, rfl⟩
      rw [mkPartition_len, Nat.zero_add]
      rcases le_or_lt (entrySize e - j * bound) bound with h | h
      · rw [if_neg (by omega), Nat.min_eq_right h]
      · rw [if_pos h, Nat.min_eq_left (by omega)]
    · rw [if_neg hc] at hget
      exact Option.noConfusion hget
  · intro e bound hb
    rw [PartitionTensor, partGo_sum e bound (entrySize e) hb (entrySize e) 0 0 (by omega)]
    omega
  · intro ctx input output ready_event name device priority version cb queue_list bound
      st hb hsz hk hq
    have hcond : ¬ (ctx.key_list.length ≠
        (PartitionTensor (newEntry ctx input output ready_event name device priority
          version cb queue_list st) bound).length) := by
      simp [hk]
    have hqlen : ¬ ((newEntry ctx input output ready_event name device priority
        version cb queue_list st).queue_list.length = 0) := by
      simpa [newEntry] using hq
    have hsum : ¬ (((PartitionTensor (newEntry ctx input output ready_event name device
        priority version cb queue_list st) bound).map (fun p => p.len)).sum
          ≠ entrySize (newEntry ctx input output ready_event name device priority
              version cb queue_list st)) := by
      rw [PartitionTensor, partGo_sum _ bound _ hb _ 0 0 (by omega)]
      omega
    have h1 : EnqueueTensor ctx input output ready_event name device priority version cb
        queue_list bound st
        = Except.ok (enqueueParts
            ((PartitionTensor (newEntry ctx input output ready_event name device priority
                version cb queue_list st) bound).zip ctx.key_list)
            ((newEntry ctx input output ready_event name device priority
                version cb queue_list st).queue_list.headD QueueType.REDUCE)
            { st with nextCounterId := st.nextCounterId + 1,
                      counters := setCounter st.counters st.nextCounterId 0 }) := by
      simp only [EnqueueTensor, hsz, Bool.false_eq_true, if_false]
      rw [if_neg hcond, if_neg hqlen, if_neg hsum]
      rfl
    refine ⟨by rw [h1]; rfl, ?_⟩
    rw [h1]
    show (enqueueParts _ _ _).events.countP isAddTask = _
    rw [enqueueParts_events]
    have hall : ∀ ev ∈ ((PartitionTensor (newEntry ctx input output ready_event name
        device priority version cb queue_list st) bound).zip ctx.key_list).map
          (fun pk => Event.AddTask ((newEntry ctx input output ready_event name device
            priority version cb queue_list st).queue_list.headD QueueType.REDUCE) pk.snd),
        isAddTask ev = true := by
      intro ev hev
      simp only [List.mem_map] at hev
      obtain ⟨pk, -, rfl⟩ := hev
      rfl
    rw [List.countP_append, List.countP_eq_length.mpr hall]
    simp only [List.length_map, List.length_zip, ← hk, Nat.min_self]
  · intro e bound hb hS
    rw [PartitionTensor, hS]
    have l0 : (mkPartition e (3 * bound + 17) 0 0 bound).len = bound := by
      rw [mkPartition_len, if_pos (show 3 * bound + 17 - 0 > bound from by omega)]
    have l1 : (mkPartition e (3 * bound + 17) (0 + bound) 1 bound).len = bound := by
      rw [mkPartition_len, if_pos (show 3 * bound + 17 - (0 + bound) > bound from by omega)]
    have l2 : (mkPartition e (3 * bound + 17) (0 + bound + bound) 2 bound).len = bound := by
      rw [mkPartition_len,
          if_pos (show 3 * bound + 17 - (0 + bound + bound) > bound from by omega)]
    have l3 : (mkPartition e (3 * bound + 17) (0 + bound + bound + bound) 3 bound).len
        = 17 := by
      rw [mkPartition_len,
          if_neg (show ¬ (3 * bound + 17 - (0 + bound + bound + bound) > bound) from by
            omega)]
      omega
    rw [partGo_unfold e bound (3 * bound + 17) (3 * bound + 17) 0 0
        (by omega) (by omega), l0]
    rw [partGo_unfold e bound (3 * bound + 17) (3 * bound + 17 - 1) (0 + bound) 1
        (by omega) (by omega), l1]
    rw [partGo_unfold e bound (3 * bound + 17) (3 * bound + 17 - 1 - 1)
        (0 + bound + bound) 2 (by omega) (by omega), l2]
    rw [partGo_unfold e bound (3 * bound + 17) (3 * bound + 17 - 1 - 1 - 1)
        (0 + bound + bound + bound) 3 (by omega) (by omega), l3]
    rw [partGo_stop e bound (3 * bound + 17) (3 * bound + 17 - 1 - 1 - 1 - 1)
        (0 + bound + bound + bound + 17) 4 (by omega)]
    simp only [List.map_cons, List.map_nil]
    rw [l0, l1, l2, l3]

def tensor5 : Tensor := { size := 5, numElements := 1, dtype := 0, hasData := true }

def c6Entry : TensorTableEntry :=
  { baseTask with
    tensor := some tensor5,
    output := none,
    queue_list := [QueueType.REDUCE] }

def c6Part : TensorTableEntry := mkPartition c6Entry 5 4 2 2

def c6Ctx : BPSContext :=
  { contextId := 0, cpubuff := 0, buff_len := 5, key_list := [21, 22, 23],
    initialized := true }

def c6Entry77 : TensorTableEntry :=
  { baseTask with
    tensor := some { size := 77, numElements := 1, dtype := 0, hasData := true },
    output := none }

/-- C6 witness: the four parts of the theorem at concrete inputs: a
5-byte tensor with bound 2 (third partition at offset 4, length 1, name
suffix 2; lengths summing to 5; a successful enqueue adding one task per
key) and a 77-byte tensor with bound 20 splitting as 20, 20, 20, 17. -/
theorem c6_partition_tensor_witness :
    (c6Part.offset = 2 * 2
     ∧ c6Part.len = min 2 (entrySize c6Entry - 2 * 2)
     ∧ c6Part.tensor_name = c6Entry.tensor_name ++ "_" ++ toString 2
     ∧ c6Part.counterId = c6Entry.counterId
     ∧ c6Part.callbackId = c6Entry.callbackId
     ∧ c6Part.queue_list = c6Entry.queue_list)
    ∧ ((PartitionTensor c6Entry 2).map (fun p => p.len)).sum = entrySize c6Entry
    ∧ (resIsOk (EnqueueTensor c6Ctx (some tensor5) none 0 "grad" 0 0 0 77
          [QueueType.REDUCE] 2 emptyState) = true
       ∧ (resEvents (EnqueueTensor c6Ctx (some tensor5) none 0 "grad" 0 0 0 77
            [QueueType.REDUCE] 2 emptyState)).countP isAddTask
         = emptyState.events.countP isAddTask + c6Ctx.key_list.length)
    ∧ (PartitionTensor c6Entry77 20).map (fun p => p.len) = [20, 20, 20, 17] := by
  refine ⟨?_, ?_, ?_, ?_⟩
  · exact c6_partition_tensor.1 c6Entry 2 2 c6Part (by decide) (by decide)
  · exact c6_partition_tensor.2.1 c6Entry 2 (by decide)
  · exact c6_partition_tensor.2.2.1 c6Ctx (some tensor5) none 0 "grad" 0 0 0 77
      [QueueType.REDUCE] 2 emptyState (by decide) rfl (by decide) (by decide)
  · exact c6_partition_tensor.2.2.2 c6Entry77 20 (by decide) rfl

end byteps
